import Mathlib

/-!
Verification development for a note-transfer automation (lambda_function.py).

The program fetches labeled notes from a notes service, appends them to a
running document organized by year/month/day headings, and deletes the
transferred notes.  Below is a shallow embedding of its pure logic:

* Google-Docs write requests are the inductive type `Request`; `addText`
  mirrors the request-building helper of the same name.
* `ordinal` and `getTime` mirror the formatting helpers of the same names.
  The source's `getTime` receives a datetime object and reads its `hour`
  and `minute` attributes; the embedding receives those two fields directly.
* The per-note append loop of `notesToGoogleDoc` is `processNote`
  (date-heading phase split out as `stepYear`/`stepMonth`/`stepDay`,
  mirroring the three successive `if` statements of the source).
* Document parsing (`getLastHeader`, `getLastDate`, `getEndIndex`) is
  embedded over a `Document` consisting of structural elements.
* The orchestration in `main` and `lambda_handler` is embedded as `mainRun`
  and `lambda_handler` over an explicit outcome of the external batch write.

Machine-level caveats of the embedding: Python strings become `String`
(`len` is `String.length`), Python `int` becomes `Int` (or `Nat` where the
source value is a count, list index, or day-of-month), raising an exception
becomes `Option`/`Except`, and the timezone-adjusted creation datetime of a
note is carried directly as the note's `year`/`month`/`day`/`hour`/`minute`/
`weekday` fields.
-/

/-- Request models one element of the request list sent to
`documents().batchUpdate`: either an `insertText` request (location index and
text) or an `updateParagraphStyle` request (range and named style type). -/
inductive Request where
  | insertText (index : Nat) (text : String)
  | updateParagraphStyle (startIndex endIndex : Nat) (namedStyleType : String)
  deriving DecidableEq, Repr

/-- Embedding of `addText(text, endIndex, namedStyleType, requests)`.
The source mutates `requests` (extending it with an insert request at
`endIndex - 1` and a style request over `[endIndex, newEndIndex)`) and
returns the new end index `endIndex + len(text) + 1`; the embedding returns
the pair (new end index, extended request list).  The source computes
`endIndex - 1` on a positive document offset; `Nat` subtraction matches it
there. -/
def addText (text : String) (endIndex : Nat) (namedStyleType : String)
    (requests : List Request) : Nat × List Request :=
  let newEndIndex := endIndex + text.length + 1
  (newEndIndex,
    requests ++
      [Request.insertText (endIndex - 1) ("\n" ++ text),
       Request.updateParagraphStyle endIndex newEndIndex namedStyleType])

/-- Embedding of `ordinal(n)`: suffix is `['th','st','nd','rd','th'][min(n % 10, 4)]`,
overridden to `'th'` for 11 <= n <= 13, appended to `str(n)`. -/
def ordinal (n : Nat) : String :=
  let suffix0 := ["th", "st", "nd", "rd", "th"].getD (min (n % 10) 4) ""
  let suffix := if 11 ≤ n ∧ n ≤ 13 then "th" else suffix0
  toString n ++ suffix

/-- Embedding of `getTime(datetime)` on the datetime's hour and minute:
12-hour clock with lowercase am/pm and zero-padded minutes. -/
def getTime (hour minute : Nat) : String :=
  let hs : Nat × String :=
    if hour = 0 then (12, "am")
    else if hour < 12 then (hour, "am")
    else if hour = 12 then (hour, "pm")
    else (hour % 12, "pm")
  let minuteStr := if 10 ≤ minute then toString minute else "0" ++ toString minute
  toString hs.1 ++ ":" ++ minuteStr ++ hs.2

/-- Spec-side restatement of the time format, written from the claim's words:
hour 0 maps to "12" with "am", hour 12 maps to "12" with "pm", hours above 12
map to hour mod 12 with "pm", other hours are printed as-is with "am" (no
leading zero), and minutes are zero-padded to two digits. -/
def getTimeSpec (hour minute : Nat) : String :=
  let hourStr :=
    if hour = 0 then "12"
    else if hour = 12 then "12"
    else if hour > 12 then toString (hour % 12)
    else toString hour
  let ampm := if hour = 0 then "am" else if 12 ≤ hour then "pm" else "am"
  let minuteStr := if minute < 10 then "0" ++ toString minute else toString minute
  hourStr ++ ":" ++ minuteStr ++ ampm

/-- Spec-side restatement of the ordinal format, written from the claim's
words: decimal string of n followed by "st" when n mod 10 = 1, "nd" when
n mod 10 = 2, "rd" when n mod 10 = 3, "th" otherwise, except that 11, 12 and
13 take "th". -/
def ordinalSpec (n : Nat) : String :=
  toString n ++
    (if 11 ≤ n ∧ n ≤ 13 then "th"
     else if n % 10 = 1 then "st"
     else if n % 10 = 2 then "nd"
     else if n % 10 = 3 then "rd"
     else "th")

/-- Chained calls of `addText`, where each call's `endIndex` argument is the
previous call's return value, starting from `endIndex0` and an accumulated
request list `requests0`.  Each element of `calls` is a (text, style) pair. -/
def chainAddText (calls : List (String × String)) (endIndex0 : Nat)
    (requests0 : List Request) : Nat × List Request :=
  calls.foldl (fun acc call => addText call.1 acc.1 call.2 acc.2)
    (endIndex0, requests0)

/-- Paragraph-style ranges [startIndex, endIndex) occurring in a request list. -/
def styleRangesOf (requests : List Request) : List (Nat × Nat) :=
  requests.filterMap fun r =>
    match r with
    | Request.insertText _ _ => none
    | Request.updateParagraphStyle a b _ => some (a, b)

/-- Month-name list defined in `main`: month numbers use 1-based indexing, so
a filler is at index 0. -/
def months : List String :=
  ["FILLER", "January", "February", "March", "April", "May", "June",
   "July", "August", "September", "October", "November", "December"]

/-- Weekday-name list defined in `notesToGoogleDoc`, indexed by Python's
`datetime.weekday()` (0 = Monday). -/
def weekDays : List String :=
  ["Monday", "Tuesday", "Wednesday", "Thursday", "Friday", "Saturday", "Sunday"]

/-- Note models one Keep note as `notesToGoogleDoc` consumes it: its title,
its body text, and the fields of its timezone-adjusted creation datetime
(`note.timestamps.created.astimezone(...)` in the source): year, 1-based
month, day of month, hour, minute, and Python weekday number (0 = Monday). -/
structure Note where
  title : String
  text : String
  year : Int
  month : Nat
  day : Nat
  hour : Nat
  minute : Nat
  weekday : Nat
  deriving DecidableEq, Repr

/-- Config models the heading-style configuration read from config.json:
the header-number strings for the year, month, day, title and time heading
levels. -/
structure Config where
  YEAR_HEADER_NUM : String
  MONTH_HEADER_NUM : String
  DAY_HEADER_NUM : String
  TITLE_HEADER_NUM : String
  TIME_HEADER_NUM : String
  deriving DecidableEq, Repr

/-- LoopState carries the mutable variables of the `for note in notes` loop in
`notesToGoogleDoc`: the last year/month/day recorded, the running end index,
and the accumulated request list. -/
structure LoopState where
  lastYear : Int
  lastMonth : Nat
  lastDay : Nat
  endIndex : Nat
  requests : List Request
  deriving DecidableEq, Repr

/-- First `if` of the loop body: when the note's (timezone-adjusted) year
differs from `lastYear`, append the year heading and update `lastYear`. -/
def stepYear (cfg : Config) (note : Note) (s : LoopState) : LoopState :=
  if note.year ≠ s.lastYear then
    let er := addText (toString note.year) s.endIndex
      ("HEADING_" ++ cfg.YEAR_HEADER_NUM) s.requests
    { s with endIndex := er.1, requests := er.2, lastYear := note.year }
  else s

/-- Second `if` of the loop body: month heading, text `months[month]`. -/
def stepMonth (cfg : Config) (note : Note) (s : LoopState) : LoopState :=
  if note.month ≠ s.lastMonth then
    let er := addText (months.getD note.month "") s.endIndex
      ("HEADING_" ++ cfg.MONTH_HEADER_NUM) s.requests
    { s with endIndex := er.1, requests := er.2, lastMonth := note.month }
  else s

/-- Third `if` of the loop body: day heading, text weekday name plus ordinal
day of month. -/
def stepDay (cfg : Config) (note : Note) (s : LoopState) : LoopState :=
  if note.day ≠ s.lastDay then
    let er := addText (weekDays.getD note.weekday "" ++ " " ++ ordinal note.day)
      s.endIndex ("HEADING_" ++ cfg.DAY_HEADER_NUM) s.requests
    { s with endIndex := er.1, requests := er.2, lastDay := note.day }
  else s

/-- Date-heading phase of the loop body: the three successive `if` statements
comparing the note's creation date against the carried-forward last date. -/
def processDateHeadings (cfg : Config) (note : Note) (s : LoopState) : LoopState :=
  stepDay cfg note (stepMonth cfg note (stepYear cfg note s))

/-- Full body of `for note in notes` in `notesToGoogleDoc`: date headings as
needed, then always the title heading, the time heading, and the body text. -/
def processNote (cfg : Config) (note : Note) (s : LoopState) : LoopState :=
  let s1 := processDateHeadings cfg note s
  let er1 := addText note.title s1.endIndex
    ("HEADING_" ++ cfg.TITLE_HEADER_NUM) s1.requests
  let s2 := { s1 with endIndex := er1.1, requests := er1.2 }
  let er2 := addText (getTime note.hour note.minute) s2.endIndex
    ("HEADING_" ++ cfg.TIME_HEADER_NUM) s2.requests
  let s3 := { s2 with endIndex := er2.1, requests := er2.2 }
  let er3 := addText note.text s3.endIndex "NORMAL_TEXT" s3.requests
  { s3 with endIndex := er3.1, requests := er3.2 }

/-- Request list built by the loop of `notesToGoogleDoc`, starting from the
state parsed out of the document.  In the source the initial state is
assigned lazily at the first iteration (`if not endIndex`); since `endIndex`
only grows by `len(text) + 1 >= 1` per insertion and is never reset, that is
equivalent to initializing before the loop, which is how it is embedded
here. -/
def notesToGoogleDocRequests (cfg : Config) (s0 : LoopState) (notes : List Note) :
    List Request :=
  (notes.foldl (fun s note => processNote cfg note s) s0).requests

/-- Timezone-adjusted creation date of a note as a (year, month, day) triple. -/
def noteDate (note : Note) : Int × Nat × Nat := (note.year, note.month, note.day)

/-- Carried-forward last date of the loop state as a (year, month, day) triple. -/
def stateDate (s : LoopState) : Int × Nat × Nat := (s.lastYear, s.lastMonth, s.lastDay)

/-- Chronological (lexicographic) strict order on (year, month, day) triples. -/
def dateLt (a b : Int × Nat × Nat) : Prop :=
  a.1 < b.1 ∨ (a.1 = b.1 ∧ (a.2.1 < b.2.1 ∨ (a.2.1 = b.2.1 ∧ a.2.2 < b.2.2)))

instance : DecidableRel dateLt := fun a b =>
  inferInstanceAs (Decidable (a.1 < b.1 ∨ (a.1 = b.1 ∧
    (a.2.1 < b.2.1 ∨ (a.2.1 = b.2.1 ∧ a.2.2 < b.2.2)))))

instance : IsTrans (Int × Nat × Nat) dateLt :=
  ⟨by intro a b c hab hbc; unfold dateLt at hab hbc ⊢; omega⟩

/-- Heading group emitted for each note in turn: the year/month/day heading
requests added by the date-heading phase of that note's loop iteration
(i.e. the requests the phase appends beyond those already accumulated). -/
def headingGroups (cfg : Config) : LoopState → List Note → List (List Request)
  | _, [] => []
  | s, note :: notes =>
      ((processDateHeadings cfg note s).requests.drop s.requests.length) ::
        headingGroups cfg (processNote cfg note s) notes

/-- Sample configuration used by witnesses: heading levels 1-5. -/
def sampleCfg : Config := ⟨"1", "2", "3", "4", "5"⟩

/-- Sample loop state used by witnesses: last date 2020-01-06, end index 10,
no accumulated requests. -/
def sampleState : LoopState := ⟨2020, 1, 6, 10, []⟩

/-- Sample note dated 2020-01-07 09:30, a Tuesday. -/
def sampleNoteA : Note := ⟨"A", "body a", 2020, 1, 7, 9, 30, 1⟩

/-- Sample note dated 2020-02-01 13:05, a Saturday. -/
def sampleNoteB : Note := ⟨"B", "body b", 2020, 2, 1, 13, 5, 5⟩

/-- Sample note dated 2020-01-06 00:00 (same date as `sampleState`), a Monday. -/
def sampleNoteSame : Note := ⟨"S", "body s", 2020, 1, 6, 0, 0, 0⟩

/-- StructuralElement models one element of `doc['body']['content']`: either a
paragraph (carrying its named style type, the text content of its first
element's text run, and its end index) or a non-paragraph element such as a
section break (carrying its end index). -/
inductive StructuralElement where
  | paragraph (namedStyleType : String) (text : String) (endIndex : Nat)
  | sectionBreak (endIndex : Nat)
  deriving DecidableEq, Repr

/-- Document models the body-content list of a Google Docs document. -/
structure Document where
  content : List StructuralElement
  deriving DecidableEq, Repr

/-- Test of `getLastHeader`'s match condition: the element is a paragraph whose
`namedStyleType` equals `'HEADING_' + headerNum`. -/
def hasStyle (headerNum : String) : StructuralElement → Bool
  | StructuralElement.paragraph style _ _ => style == "HEADING_" ++ headerNum
  | StructuralElement.sectionBreak _ => false

/-- Text content of a structural element (the source reads
`content['paragraph']['elements'][0]['textRun']['content']`). -/
def elementText : StructuralElement → String
  | StructuralElement.paragraph _ text _ => text
  | StructuralElement.sectionBreak _ => ""

/-- Embedding of Python's `str.strip()`: drop whitespace from both ends. -/
def pyStrip (s : String) : String :=
  String.mk
    (((s.data.dropWhile Char.isWhitespace).reverse.dropWhile
        Char.isWhitespace).reverse)

/-- Value of a digit string read in base 10. -/
def digitsToNat (cs : List Char) : Nat :=
  cs.foldl (fun acc c => 10 * acc + (c.toNat - 48)) 0

/-- Embedding of Python's `int(s)` on an unsigned string: succeeds exactly on
nonempty all-digit strings (in particular `int('')` raises, hence `none`). -/
def pyNat? (cs : List Char) : Option Nat :=
  if cs ≠ [] ∧ cs.all Char.isDigit then some (digitsToNat cs) else none

/-- Embedding of Python's `int(s)` on an already-stripped string: an optional
leading minus sign followed by digits. -/
def pyInt? (s : String) : Option Int :=
  match s.data with
  | [] => none
  | c :: cs =>
      if c = '-' then (pyNat? cs).map fun n => -(n : Int)
      else (pyNat? (c :: cs)).map fun n => (n : Int)

/-- Embedding of `getLastHeader(doc, headerNum)`: iterate through the content
in reverse and return the stripped text of the first paragraph whose named
style type is `'HEADING_' + headerNum`; `None` when no such paragraph exists. -/
def getLastHeader (doc : Document) (headerNum : String) : Option String :=
  (doc.content.reverse.find? (hasStyle headerNum)).map fun c =>
    pyStrip (elementText c)

/-- Embedding of `getLastDate(doc)`: the year is the year header's text as an
integer (`int(...)` raising on a missing header or non-numeric text becomes
`none`), the month is the index of the month header's text in `months`
(`list.index` raising `ValueError` becomes `none`), and the day is the
integer formed by the digits of the day header's text (`int('')` raising on a
digit-free header becomes `none`). -/
def getLastDate (cfg : Config) (doc : Document) : Option (Int × Nat × Nat) := do
  let yearText ← getLastHeader doc cfg.YEAR_HEADER_NUM
  let lastYear ← pyInt? yearText
  let monthText ← getLastHeader doc cfg.MONTH_HEADER_NUM
  let lastMonth ← months.findIdx? fun name => name == monthText
  let dayText ← getLastHeader doc cfg.DAY_HEADER_NUM
  let lastDay ← pyNat? (dayText.data.filter Char.isDigit)
  return (lastYear, lastMonth, lastDay)

/-- End index of a structural element. -/
def elementEndIndex : StructuralElement → Nat
  | StructuralElement.paragraph _ _ e => e
  | StructuralElement.sectionBreak e => e

/-- Embedding of `getEndIndex(doc)`: the end index of the last content element
(`content[-1]` raising on an empty list becomes `none`). -/
def getEndIndex (doc : Document) : Option Nat :=
  doc.content.getLast?.map elementEndIndex

/-- Initial loop state of `notesToGoogleDoc`, assigned at the first iteration:
the parsed last date and the document's end index, with no requests yet. -/
def initState (cfg : Config) (doc : Document) : Option LoopState := do
  let ymd ← getLastDate cfg doc
  let e ← getEndIndex doc
  return ⟨ymd.1, ymd.2.1, ymd.2.2, e, []⟩

/-- RunAction models one externally visible effect of a run: the single
`batchUpdate` call of `notesToGoogleDoc`, one `note.delete()` call of
`deleteNotes`, or the final `keep.sync()`. -/
inductive RunAction where
  | batchUpdate (requests : List Request)
  | deleteNote (note : Note)
  | sync
  deriving DecidableEq, Repr

/-- Embedding of the run orchestrated by `main` after the notes are fetched:
when the note list is empty the `if notes:` guard skips both steps; otherwise
`notesToGoogleDoc` builds the requests and issues the batch write (whose
external outcome is `batchResult`; a raised error propagates, so `deleteNotes`
runs only when the batch write returns successfully).  The result is the list
of attempted external actions in order, and the error the run raised, if any.
A failure while parsing the document (`initState` `none`) likewise raises
before any action is attempted. -/
def mainRun (cfg : Config) (doc : Document) (notes : List Note)
    (batchResult : Except String Unit) : List RunAction × Option String :=
  if notes.isEmpty then ([], none)
  else
    match initState cfg doc with
    | none => ([], some "error while parsing the document")
    | some s0 =>
      let requests := notesToGoogleDocRequests cfg s0 notes
      match batchResult with
      | Except.error e => ([RunAction.batchUpdate requests], some e)
      | Except.ok _ =>
          (RunAction.batchUpdate requests ::
            (notes.map RunAction.deleteNote ++ [RunAction.sync]), none)

/-- Test for a note-deletion action. -/
def isDeleteAction : RunAction → Bool
  | RunAction.deleteNote _ => true
  | _ => false

/-- Effect of one action on the source note store: `note.delete()` removes the
note, the other actions leave the store unchanged. -/
def applyAction (store : List Note) : RunAction → List Note
  | RunAction.deleteNote note => store.erase note
  | _ => store

/-- Effect of a run's action list on the source note store. -/
def applyActions (store : List Note) (acts : List RunAction) : List Note :=
  acts.foldl applyAction store

/-- Response models the fixed-shape value returned by `lambda_handler`. -/
structure Response where
  statusCode : Nat
  body : String
  deriving DecidableEq, Repr

/-- JSON encoding of one character inside a JSON string literal. -/
def jsonEscapeChar (c : Char) : String :=
  if c = '"' then "\\\""
  else if c = '\\' then "\\\\"
  else if c = '\n' then "\\n"
  else String.singleton c

/-- Embedding of `json.dumps` on a string: the quoted, escaped string literal. -/
def jsonDumps (s : String) : String :=
  "\"" ++ String.join (s.data.map jsonEscapeChar) ++ "\""

/-- Embedding of `lambda_handler(event, context)`: `trace` is `'Success!'`
unless `main` raised, in which case it is the formatted traceback (carried
here as the error's string); the response is always
`{'statusCode': 200, 'body': json.dumps(trace)}`. -/
def lambda_handler (mainResult : Except String Unit) : Response :=
  let trace :=
    match mainResult with
    | Except.ok _ => "Success!"
    | Except.error e => e
  { statusCode := 200, body := jsonDumps trace }

/-- Sample document used by witnesses: a seeded document whose trailing
headers read 2020 / January / Monday 6th. -/
def sampleDoc : Document :=
  ⟨[StructuralElement.paragraph "HEADING_1" "2020" 6,
    StructuralElement.paragraph "HEADING_2" "January" 15,
    StructuralElement.paragraph "HEADING_3" "Monday 6th" 27,
    StructuralElement.paragraph "NORMAL_TEXT" "seed body" 37]⟩

/-- Loop state parsed out of `sampleDoc`. -/
def sampleParsedState : LoopState := ⟨2020, 1, 6, 37, []⟩

/-- Sample document with no headings at all: a section break and a plain
paragraph. -/
def sampleDocNoHeadings : Document :=
  ⟨[StructuralElement.sectionBreak 1,
    StructuralElement.paragraph "NORMAL_TEXT" "hello" 7]⟩

lemma styleRangesOf_append (rs ts : List Request) :
    styleRangesOf (rs ++ ts) = styleRangesOf rs ++ styleRangesOf ts := by
  simp [styleRangesOf]

lemma chainAddText_ranges_invariant (calls : List (String × String)) :
    ∀ (e : Nat) (rs : List Request),
      (∀ p ∈ styleRangesOf rs, p.2 ≤ e) →
      List.Pairwise (fun p q => p.2 ≤ q.1) (styleRangesOf rs) →
      (∀ p ∈ styleRangesOf (chainAddText calls e rs).2,
          p.2 ≤ (chainAddText calls e rs).1) ∧
      List.Pairwise (fun p q => p.2 ≤ q.1)
        (styleRangesOf (chainAddText calls e rs).2) := by
  induction calls with
  | nil => intro e rs hb hp; exact ⟨hb, hp⟩
  | cons c cs ih =>
      intro e rs hb hp
      have hstep :
          chainAddText (c :: cs) e rs =
            chainAddText cs (e + c.1.length + 1)
              (rs ++ [Request.insertText (e - 1) ("\n" ++ c.1),
                      Request.updateParagraphStyle e (e + c.1.length + 1) c.2]) := rfl
      have hranges :
          styleRangesOf
              (rs ++ [Request.insertText (e - 1) ("\n" ++ c.1),
                      Request.updateParagraphStyle e (e + c.1.length + 1) c.2]) =
            styleRangesOf rs ++ [(e, e + c.1.length + 1)] := by
        rw [styleRangesOf_append]; rfl
      rw [hstep]
      apply ih
      · intro p hpmem
        rw [hranges] at hpmem
        rcases List.mem_append.mp hpmem with h1 | h2
        · have h3 := hb p h1
          omega
        · have h4 : p = (e, e + c.1.length + 1) := by simpa using h2
          subst h4
          simp
      · rw [hranges, List.pairwise_append]
        refine ⟨hp, by simp, ?_⟩
        intro p h1 q h2
        have h3 : q = (e, e + c.1.length + 1) := by simpa using h2
        subst h3
        exact hb p h1

/-- C2: `addText` returns `endIndex + len(text) + 1` as the new cursor, and
across any chained sequence of `addText` calls (each call's endIndex being the
previous call's return value) the emitted paragraph-style ranges
[endIndex, newEndIndex) are pairwise non-overlapping: every earlier range ends
no later than any later range starts. -/
theorem addText_cursor_and_ranges_disjoint :
    (∀ (text : String) (endIndex : Nat) (style : String) (requests : List Request),
        (addText text endIndex style requests).1 = endIndex + text.length + 1) ∧
    (∀ (calls : List (String × String)) (endIndex0 : Nat),
        List.Pairwise (fun p q => p.2 ≤ q.1)
          (styleRangesOf (chainAddText calls endIndex0 []).2)) := by
  constructor
  · intro text endIndex style requests
    rfl
  · intro calls endIndex0
    exact (chainAddText_ranges_invariant calls endIndex0 []
      (by simp [styleRangesOf]) (by simp [styleRangesOf])).2

/-- C4: `getTime` agrees with the claim's description of the 12-hour clock
format at every hour and minute, and on the three quoted examples:
00:00 gives "12:00am", 13:05 gives "1:05pm", 23:59 gives "11:59pm". -/
theorem getTime_matches_spec :
    (∀ (hour minute : Nat), getTime hour minute = getTimeSpec hour minute) ∧
    getTime 0 0 = "12:00am" ∧ getTime 13 5 = "1:05pm" ∧ getTime 23 59 = "11:59pm" := by
  refine ⟨?_, by decide, by decide, by decide⟩
  intro hour minute
  simp only [getTime, getTimeSpec]
  split_ifs <;> first | rfl | omega | (subst_vars; rfl)

/-- C5: on 1 <= n <= 100, `ordinal` agrees with the claim's description of
English ordinal suffixes, and on the quoted examples 1, 2, 3, 4, 11, 12, 13, 21. -/
theorem ordinal_matches_spec :
    (∀ n : Nat, 1 ≤ n → n ≤ 100 → ordinal n = ordinalSpec n) ∧
    ordinal 1 = "1st" ∧ ordinal 2 = "2nd" ∧ ordinal 3 = "3rd" ∧
    ordinal 4 = "4th" ∧ ordinal 11 = "11th" ∧ ordinal 12 = "12th" ∧
    ordinal 13 = "13th" ∧ ordinal 21 = "21st" := by
  refine ⟨?_, by decide, by decide, by decide, by decide, by decide,
    by decide, by decide, by decide⟩
  intro n h1 h100
  simp only [ordinal, ordinalSpec]
  congr 1
  by_cases hteen : 11 ≤ n ∧ n ≤ 13
  · simp [hteen]
  · simp only [if_neg hteen]
    have hm : n % 10 < 10 := Nat.mod_lt n (by omega)
    set m := n % 10 with hmdef
    interval_cases m <;> rfl

/-- C5 witness: the general part of `ordinal_matches_spec` applied at n = 21. -/
theorem ordinal_matches_spec_witness :
    (1 ≤ 21 ∧ 21 ≤ 100) ∧ ordinal 21 = ordinalSpec 21 :=
  ⟨⟨by decide, by decide⟩, ordinal_matches_spec.1 21 (by decide) (by decide)⟩

lemma dateLt_ne {a b : Int × Nat × Nat} (h : dateLt a b) : a ≠ b := by
  intro he
  subst he
  unfold dateLt at h
  omega

lemma stepYear_eq_of_same (cfg : Config) (note : Note) (s : LoopState)
    (h : note.year = s.lastYear) : stepYear cfg note s = s := by
  unfold stepYear
  exact if_neg (not_ne_iff.mpr h)

lemma stepMonth_eq_of_same (cfg : Config) (note : Note) (s : LoopState)
    (h : note.month = s.lastMonth) : stepMonth cfg note s = s := by
  unfold stepMonth
  exact if_neg (not_ne_iff.mpr h)

lemma stepDay_eq_of_same (cfg : Config) (note : Note) (s : LoopState)
    (h : note.day = s.lastDay) : stepDay cfg note s = s := by
  unfold stepDay
  exact if_neg (not_ne_iff.mpr h)

lemma stepYear_lastYear (cfg : Config) (note : Note) (s : LoopState) :
    (stepYear cfg note s).lastYear = note.year := by
  unfold stepYear
  split_ifs with h
  · rfl
  · exact (not_ne_iff.mp h).symm

lemma stepYear_lastMonth (cfg : Config) (note : Note) (s : LoopState) :
    (stepYear cfg note s).lastMonth = s.lastMonth := by
  unfold stepYear
  split_ifs <;> rfl

lemma stepYear_lastDay (cfg : Config) (note : Note) (s : LoopState) :
    (stepYear cfg note s).lastDay = s.lastDay := by
  unfold stepYear
  split_ifs <;> rfl

lemma stepMonth_lastMonth (cfg : Config) (note : Note) (s : LoopState) :
    (stepMonth cfg note s).lastMonth = note.month := by
  unfold stepMonth
  split_ifs with h
  · rfl
  · exact (not_ne_iff.mp h).symm

lemma stepMonth_lastYear (cfg : Config) (note : Note) (s : LoopState) :
    (stepMonth cfg note s).lastYear = s.lastYear := by
  unfold stepMonth
  split_ifs <;> rfl

lemma stepMonth_lastDay (cfg : Config) (note : Note) (s : LoopState) :
    (stepMonth cfg note s).lastDay = s.lastDay := by
  unfold stepMonth
  split_ifs <;> rfl

lemma stepDay_lastDay (cfg : Config) (note : Note) (s : LoopState) :
    (stepDay cfg note s).lastDay = note.day := by
  unfold stepDay
  split_ifs with h
  · rfl
  · exact (not_ne_iff.mp h).symm

lemma stepDay_lastYear (cfg : Config) (note : Note) (s : LoopState) :
    (stepDay cfg note s).lastYear = s.lastYear := by
  unfold stepDay
  split_ifs <;> rfl

lemma stepDay_lastMonth (cfg : Config) (note : Note) (s : LoopState) :
    (stepDay cfg note s).lastMonth = s.lastMonth := by
  unfold stepDay
  split_ifs <;> rfl

lemma processDateHeadings_stateDate (cfg : Config) (note : Note) (s : LoopState) :
    stateDate (processDateHeadings cfg note s) = noteDate note := by
  unfold processDateHeadings stateDate noteDate
  rw [stepDay_lastYear, stepDay_lastMonth, stepDay_lastDay,
    stepMonth_lastYear, stepMonth_lastMonth, stepYear_lastYear]

lemma processNote_stateDate (cfg : Config) (note : Note) (s : LoopState) :
    stateDate (processNote cfg note s) = noteDate note :=
  processDateHeadings_stateDate cfg note s

lemma stepYear_requests_le (cfg : Config) (note : Note) (s : LoopState) :
    s.requests.length ≤ (stepYear cfg note s).requests.length := by
  unfold stepYear
  split_ifs <;> simp [addText]

lemma stepMonth_requests_le (cfg : Config) (note : Note) (s : LoopState) :
    s.requests.length ≤ (stepMonth cfg note s).requests.length := by
  unfold stepMonth
  split_ifs <;> simp [addText]

lemma stepDay_requests_le (cfg : Config) (note : Note) (s : LoopState) :
    s.requests.length ≤ (stepDay cfg note s).requests.length := by
  unfold stepDay
  split_ifs <;> simp [addText]

lemma stepYear_requests_lt (cfg : Config) (note : Note) (s : LoopState)
    (h : note.year ≠ s.lastYear) :
    s.requests.length < (stepYear cfg note s).requests.length := by
  unfold stepYear
  rw [if_pos h]
  simp [addText]

lemma stepMonth_requests_lt (cfg : Config) (note : Note) (s : LoopState)
    (h : note.month ≠ s.lastMonth) :
    s.requests.length < (stepMonth cfg note s).requests.length := by
  unfold stepMonth
  rw [if_pos h]
  simp [addText]

lemma stepDay_requests_lt (cfg : Config) (note : Note) (s : LoopState)
    (h : note.day ≠ s.lastDay) :
    s.requests.length < (stepDay cfg note s).requests.length := by
  unfold stepDay
  rw [if_pos h]
  simp [addText]

lemma processDateHeadings_requests_lt (cfg : Config) (note : Note) (s : LoopState)
    (h : stateDate s ≠ noteDate note) :
    s.requests.length < (processDateHeadings cfg note s).requests.length := by
  unfold processDateHeadings
  by_cases hy : note.year = s.lastYear
  · rw [stepYear_eq_of_same cfg note s hy]
    by_cases hm : note.month = s.lastMonth
    · rw [stepMonth_eq_of_same cfg note s hm]
      have hd : note.day ≠ s.lastDay := by
        intro hd
        exact h (by simp [stateDate, noteDate, hy, hm, hd])
      exact stepDay_requests_lt cfg note s hd
    · calc s.requests.length < (stepMonth cfg note s).requests.length :=
            stepMonth_requests_lt cfg note s hm
        _ ≤ _ := stepDay_requests_le cfg note _
  · calc s.requests.length < (stepYear cfg note s).requests.length :=
          stepYear_requests_lt cfg note s hy
      _ ≤ (stepMonth cfg note (stepYear cfg note s)).requests.length :=
          stepMonth_requests_le cfg note _
      _ ≤ _ := stepDay_requests_le cfg note _

lemma headingGroups_length_and_nonempty (cfg : Config) :
    ∀ (notes : List Note) (s : LoopState),
      List.Chain' dateLt (stateDate s :: notes.map noteDate) →
      (headingGroups cfg s notes).length = notes.length ∧
      ∀ g ∈ headingGroups cfg s notes, g ≠ [] := by
  intro notes
  induction notes with
  | nil => intro s _; simp [headingGroups]
  | cons note notes ih =>
      intro s h
      have h1 : dateLt (stateDate s) (noteDate note) :=
        (List.chain'_cons.mp (by simpa using h)).1
      have h2 : List.Chain' dateLt
          (stateDate (processNote cfg note s) :: notes.map noteDate) := by
        rw [processNote_stateDate]
        exact (List.chain'_cons.mp (by simpa using h)).2
      obtain ⟨hlen, hne⟩ := ih (processNote cfg note s) h2
      refine ⟨by simp [headingGroups, hlen], ?_⟩
      intro g hg
      rcases (by simpa [headingGroups] using hg :
          g = (processDateHeadings cfg note s).requests.drop s.requests.length ∨
          g ∈ headingGroups cfg (processNote cfg note s) notes) with hg1 | hg2
      · subst hg1
        have hlt := processDateHeadings_requests_lt cfg note s (dateLt_ne h1)
        have : 0 < ((processDateHeadings cfg note s).requests.drop
            s.requests.length).length := by
          rw [List.length_drop]
          omega
        exact List.length_pos.mp this
      · exact hne g hg2

/-- C1: starting from the document's parsed last date, for notes whose
timezone-adjusted creation dates are strictly ascending (hence distinct), the
built request sequence contains exactly one heading group per note — a
nonempty block of year/month/day heading insertions emitted by that note's
date-heading phase — and since each note's group is emitted in note order,
the groups stand in ascending chronological order and no two groups belong to
the same (year, month, day) triple. -/
theorem notesToGoogleDoc_heading_groups (cfg : Config) (s : LoopState)
    (notes : List Note)
    (h : List.Chain' dateLt (stateDate s :: notes.map noteDate)) :
    (headingGroups cfg s notes).length = notes.length ∧
    (∀ g ∈ headingGroups cfg s notes, g ≠ []) ∧
    List.Pairwise dateLt (notes.map noteDate) ∧
    (notes.map noteDate).Nodup := by
  obtain ⟨hlen, hne⟩ := headingGroups_length_and_nonempty cfg notes s h
  have hp : List.Pairwise dateLt (notes.map noteDate) :=
    List.chain'_iff_pairwise.mp (List.chain'_cons'.mp h).2
  exact ⟨hlen, hne, hp, hp.imp fun hab => dateLt_ne hab⟩

/-- C1 witness: `notesToGoogleDoc_heading_groups` applied to two sample notes
dated 2020-01-07 and 2020-02-01 after a parsed last date of 2020-01-06. -/
theorem notesToGoogleDoc_heading_groups_witness :
    List.Chain' dateLt
      (stateDate sampleState :: [sampleNoteA, sampleNoteB].map noteDate) ∧
    ((headingGroups sampleCfg sampleState [sampleNoteA, sampleNoteB]).length =
        [sampleNoteA, sampleNoteB].length ∧
      (∀ g ∈ headingGroups sampleCfg sampleState [sampleNoteA, sampleNoteB],
          g ≠ []) ∧
      List.Pairwise dateLt ([sampleNoteA, sampleNoteB].map noteDate) ∧
      ([sampleNoteA, sampleNoteB].map noteDate).Nodup) := by
  have h : List.Chain' dateLt
      (stateDate sampleState :: [sampleNoteA, sampleNoteB].map noteDate) := by
    simp only [List.map_cons, List.map_nil]
    refine List.chain'_cons.mpr ⟨?_, List.chain'_cons.mpr
      ⟨?_, List.chain'_singleton _⟩⟩ <;> decide
  exact ⟨h, notesToGoogleDoc_heading_groups sampleCfg sampleState
    [sampleNoteA, sampleNoteB] h⟩

/-- C6: a note whose timezone-adjusted year, month and day all equal the
carried-forward last-seen values emits no year, month or day heading request:
its loop iteration appends exactly the title-heading insertion, the
time-heading insertion, and the plain-text body insertion (each an insertText
request followed by its updateParagraphStyle request). -/
theorem processNote_same_date_emits_only_title_time_body
    (cfg : Config) (note : Note) (s : LoopState)
    (hy : note.year = s.lastYear) (hm : note.month = s.lastMonth)
    (hd : note.day = s.lastDay) :
    (processNote cfg note s).requests =
      s.requests ++
        [Request.insertText (s.endIndex - 1) ("\n" ++ note.title),
         Request.updateParagraphStyle s.endIndex
           (s.endIndex + note.title.length + 1)
           ("HEADING_" ++ cfg.TITLE_HEADER_NUM),
         Request.insertText (s.endIndex + note.title.length + 1 - 1)
           ("\n" ++ getTime note.hour note.minute),
         Request.updateParagraphStyle (s.endIndex + note.title.length + 1)
           (s.endIndex + note.title.length + 1 +
             (getTime note.hour note.minute).length + 1)
           ("HEADING_" ++ cfg.TIME_HEADER_NUM),
         Request.insertText
           (s.endIndex + note.title.length + 1 +
             (getTime note.hour note.minute).length + 1 - 1)
           ("\n" ++ note.text),
         Request.updateParagraphStyle
           (s.endIndex + note.title.length + 1 +
             (getTime note.hour note.minute).length + 1)
           (s.endIndex + note.title.length + 1 +
             (getTime note.hour note.minute).length + 1 + note.text.length + 1)
           "NORMAL_TEXT"] := by
  have h0 : processDateHeadings cfg note s = s := by
    unfold processDateHeadings
    rw [stepYear_eq_of_same cfg note s hy, stepMonth_eq_of_same cfg note s hm,
      stepDay_eq_of_same cfg note s hd]
  simp [processNote, h0, addText]

/-- C6 witness: `processNote_same_date_emits_only_title_time_body` applied to
a sample note carrying the same date 2020-01-06 as the sample loop state. -/
theorem processNote_same_date_witness :
    (sampleNoteSame.year = sampleState.lastYear ∧
      sampleNoteSame.month = sampleState.lastMonth ∧
      sampleNoteSame.day = sampleState.lastDay) ∧
    (processNote sampleCfg sampleNoteSame sampleState).requests =
      sampleState.requests ++
        [Request.insertText (sampleState.endIndex - 1)
           ("\n" ++ sampleNoteSame.title),
         Request.updateParagraphStyle sampleState.endIndex
           (sampleState.endIndex + sampleNoteSame.title.length + 1)
           ("HEADING_" ++ sampleCfg.TITLE_HEADER_NUM),
         Request.insertText
           (sampleState.endIndex + sampleNoteSame.title.length + 1 - 1)
           ("\n" ++ getTime sampleNoteSame.hour sampleNoteSame.minute),
         Request.updateParagraphStyle
           (sampleState.endIndex + sampleNoteSame.title.length + 1)
           (sampleState.endIndex + sampleNoteSame.title.length + 1 +
             (getTime sampleNoteSame.hour sampleNoteSame.minute).length + 1)
           ("HEADING_" ++ sampleCfg.TIME_HEADER_NUM),
         Request.insertText
           (sampleState.endIndex + sampleNoteSame.title.length + 1 +
             (getTime sampleNoteSame.hour sampleNoteSame.minute).length + 1 - 1)
           ("\n" ++ sampleNoteSame.text),
         Request.updateParagraphStyle
           (sampleState.endIndex + sampleNoteSame.title.length + 1 +
             (getTime sampleNoteSame.hour sampleNoteSame.minute).length + 1)
           (sampleState.endIndex + sampleNoteSame.title.length + 1 +
             (getTime sampleNoteSame.hour sampleNoteSame.minute).length + 1 +
             sampleNoteSame.text.length + 1)
           "NORMAL_TEXT"] := by
  have hy : sampleNoteSame.year = sampleState.lastYear := by decide
  have hm : sampleNoteSame.month = sampleState.lastMonth := by decide
  have hd : sampleNoteSame.day = sampleState.lastDay := by decide
  exact ⟨⟨hy, hm, hd⟩, processNote_same_date_emits_only_title_time_body
    sampleCfg sampleNoteSame sampleState hy hm hd⟩

/-- C10: loop invariant of the append builder.  After processing each note —
that is, after any prefix of the notes list followed by a note n — the
carried-forward `lastYear`, `lastMonth` and `lastDay` equal n's
timezone-adjusted creation year, month and day.  Moreover the 1-based month
numbering is consistent between emission (`months[month]`) and parsing
(`months.index`): looking up the emitted month name returns the month number
for every calendar month 1-12. -/
theorem processNote_loop_invariant :
    (∀ (cfg : Config) (s : LoopState) (pre : List Note) (note : Note),
        stateDate (List.foldl (fun s nt => processNote cfg nt s) s
          (pre ++ [note])) = noteDate note) ∧
    (∀ m : Nat, 1 ≤ m → m ≤ 12 →
        months.findIdx? (fun name => name == months.getD m "") = some m) := by
  constructor
  · intro cfg s pre note
    rw [List.foldl_append]
    simpa using processNote_stateDate cfg note _
  · intro m h1 h12
    interval_cases m <;> decide

/-- C10 witness: the month round-trip part of `processNote_loop_invariant`
applied at month 5 (May), and the fold part applied to the two sample notes. -/
theorem processNote_loop_invariant_witness :
    (1 ≤ 5 ∧ 5 ≤ 12) ∧
    months.findIdx? (fun name => name == months.getD 5 "") = some 5 ∧
    stateDate (List.foldl (fun s nt => processNote sampleCfg nt s) sampleState
      ([sampleNoteA] ++ [sampleNoteB])) = noteDate sampleNoteB :=
  ⟨⟨by decide, by decide⟩,
    processNote_loop_invariant.2 5 (by decide) (by decide),
    processNote_loop_invariant.1 sampleCfg sampleState [sampleNoteA] sampleNoteB⟩

/-- C3: if the single batched document write raises an error, no note deletion
is attempted — the run's action list contains no deletion, so the source note
store is unchanged; and when the batch write returns successfully, the run's
action list is exactly the batch write followed by the deletions and the
commit, so deletion happens only after `notesToGoogleDoc` succeeds. -/
theorem batch_failure_means_no_deletion (cfg : Config) (doc : Document)
    (notes : List Note) (e : String) (store : List Note) :
    ((mainRun cfg doc notes (Except.error e)).1.filter isDeleteAction = [] ∧
      applyActions store (mainRun cfg doc notes (Except.error e)).1 = store) ∧
    (∀ s0 : LoopState, initState cfg doc = some s0 → notes.isEmpty = false →
      mainRun cfg doc notes (Except.ok ()) =
        (RunAction.batchUpdate (notesToGoogleDocRequests cfg s0 notes) ::
          (notes.map RunAction.deleteNote ++ [RunAction.sync]), none)) := by
  constructor
  · unfold mainRun
    by_cases hempty : notes.isEmpty
    · simp [hempty, applyActions]
    · cases hinit : initState cfg doc with
      | none => simp [hempty, hinit, applyActions]
      | some s0 =>
          simp [hempty, hinit, applyActions, isDeleteAction, applyAction]
  · intro s0 hinit hempty
    unfold mainRun
    rw [hempty, hinit]
    simp

/-- C3 witness: `batch_failure_means_no_deletion` on the sample document and
one sample note, with the success-ordering part discharged at the parsed
state of the sample document. -/
theorem batch_failure_means_no_deletion_witness :
    (initState sampleCfg sampleDoc = some sampleParsedState ∧
      [sampleNoteA].isEmpty = false) ∧
    ((mainRun sampleCfg sampleDoc [sampleNoteA] (Except.error "boom")).1.filter
        isDeleteAction = [] ∧
      applyActions [sampleNoteA]
        (mainRun sampleCfg sampleDoc [sampleNoteA] (Except.error "boom")).1 =
        [sampleNoteA]) ∧
    mainRun sampleCfg sampleDoc [sampleNoteA] (Except.ok ()) =
      (RunAction.batchUpdate
          (notesToGoogleDocRequests sampleCfg sampleParsedState [sampleNoteA]) ::
        ([sampleNoteA].map RunAction.deleteNote ++ [RunAction.sync]), none) := by
  have hinit : initState sampleCfg sampleDoc = some sampleParsedState := by decide
  have hempty : ([sampleNoteA] : List Note).isEmpty = false := by decide
  have h := batch_failure_means_no_deletion sampleCfg sampleDoc [sampleNoteA]
    "boom" [sampleNoteA]
  exact ⟨⟨hinit, hempty⟩, h.1, h.2 sampleParsedState hinit hempty⟩

/-- C7: a run in which the label query returns zero notes performs no
document write and no note deletion: the `if notes:` guard skips both the
append step and the delete step, the action list is empty, no error is
raised, and the note store is unchanged. -/
theorem empty_run_no_writes_no_deletes (cfg : Config) (doc : Document)
    (batchResult : Except String Unit) (store : List Note) :
    mainRun cfg doc [] batchResult = ([], none) ∧
    applyActions store (mainRun cfg doc [] batchResult).1 = store := by
  constructor <;> simp [mainRun, applyActions]

/-- C8: when a document contains no paragraph of the required heading style,
`getLastHeader` returns nothing usable (`None`); consequently `getLastDate`
on a document lacking the dated year heading fails (the year conversion
`int(None)` raises) rather than returning a date. -/
theorem no_heading_means_parse_failure :
    (∀ (doc : Document) (headerNum : String),
        (∀ c ∈ doc.content, hasStyle headerNum c = false) →
        getLastHeader doc headerNum = none) ∧
    (∀ (cfg : Config) (doc : Document),
        (∀ c ∈ doc.content, hasStyle cfg.YEAR_HEADER_NUM c = false) →
        getLastDate cfg doc = none) := by
  have h1 : ∀ (doc : Document) (headerNum : String),
      (∀ c ∈ doc.content, hasStyle headerNum c = false) →
      getLastHeader doc headerNum = none := by
    intro doc headerNum h
    unfold getLastHeader
    rw [List.find?_eq_none.mpr]
    · rfl
    · intro x hx
      simp [h x (List.mem_reverse.mp hx)]
  refine ⟨h1, ?_⟩
  intro cfg doc h
  unfold getLastDate
  rw [h1 doc cfg.YEAR_HEADER_NUM h]
  rfl

/-- C8 witness: `no_heading_means_parse_failure` on a sample document with no
headings, for the year heading level of the sample configuration. -/
theorem no_heading_means_parse_failure_witness :
    (∀ c ∈ sampleDocNoHeadings.content,
        hasStyle sampleCfg.YEAR_HEADER_NUM c = false) ∧
    getLastHeader sampleDocNoHeadings sampleCfg.YEAR_HEADER_NUM = none ∧
    getLastDate sampleCfg sampleDocNoHeadings = none := by
  have h : ∀ c ∈ sampleDocNoHeadings.content,
      hasStyle sampleCfg.YEAR_HEADER_NUM c = false := by decide
  exact ⟨h,
    no_heading_means_parse_failure.1 sampleDocNoHeadings
      sampleCfg.YEAR_HEADER_NUM h,
    no_heading_means_parse_failure.2 sampleCfg sampleDocNoHeadings h⟩

/-- C9: every outcome of `main` — success or any raised exception — is caught
by `lambda_handler` and turned into the fixed-shape response: the status code
is always 200, a success reports the JSON-encoded string `'Success!'`, and a
failure reports the JSON-encoded formatted trace; no exception propagates
(the handler is a total function of the outcome). -/
theorem lambda_handler_fixed_response :
    (∀ r : Except String Unit, (lambda_handler r).statusCode = 200) ∧
    lambda_handler (Except.ok ()) = ⟨200, jsonDumps "Success!"⟩ ∧
    (∀ trace : String,
        lambda_handler (Except.error trace) = ⟨200, jsonDumps trace⟩) := by
  refine ⟨?_, rfl, fun trace => rfl⟩
  intro r
  cases r <;> rfl
